import Mathlib

/-!
Verification of the file-storage core of the progressive-web-app template.

The embedding below models src/src/services/FileStorageService.ts:
the FileStorageService engine (saveFile, loadFile, listFiles, deleteFile,
clearAll, getFileInfo, getStoredFiles) together with the DropboxStorageService
remote side it calls (uploadFile, deleteFile, clearAll).  The browser
localStorage blob is modelled at two levels: most engine operations act on the
parsed registry (a list of StoredFile records, the value getStoredFiles
produces), while getStoredFiles itself is modelled over a PersistedBlob type
that can also be absent or corrupt.  Nondeterministic inputs of the source
(Date.now, Math.random, network outcomes) are passed in explicitly.
-/

/-- One persisted document, mirroring the StoredFile interface. -/
structure StoredFile where
  id : String
  name : String
  content : String
  createdAt : String
  size : Nat
deriving DecidableEq, Repr

/-- Error outcomes of the engine, one constructor per throw site. -/
inductive FsError where
  /-- throw new Error of text File name is required -/
  | nameRequired
  /-- throw new Error of text File content is required -/
  | contentRequired
  /-- per-file size check failure in saveFile -/
  | fileTooLarge
  /-- total-size check failure in saveFile, before the catch rewrite -/
  | totalLimitExceeded
  /-- the message produced by the quota branch of the saveFile catch -/
  | storageQuotaExceeded
  /-- file not found, raised by loadFile and deleteFile -/
  | notFound (name : String)
  /-- DropboxSyncError raised by the remote service -/
  | dropboxSync
  /-- generic failure raised by the engine clearAll catch -/
  | clearFailed
deriving DecidableEq, Repr

/-- State and failure model of the DropboxStorageService remote side.
clientAvailable models getClient returning a client (an access token exists),
ready models isReady, the three failure flags model a network or API failure
of the corresponding remote call, basePath is the normalised
VITE_DROPBOX_BASE_PATH, and remoteFiles holds (path, content) pairs. -/
structure DropboxEnv where
  clientAvailable : Bool
  ready : Bool
  uploadFails : Bool
  deleteFails : Bool
  clearFails : Bool
  basePath : String
  remoteFiles : List (String × String)
deriving DecidableEq, Repr

/-- String.prototype.trim: drop whitespace from both ends. -/
def jsTrim (s : String) : String :=
  String.mk (((s.data.dropWhile Char.isWhitespace).reverse.dropWhile
    Char.isWhitespace).reverse)

/-- JS falsy-or-blank test: !s || !s.trim() is equivalent to the trimmed
string being empty. -/
def isBlank (s : String) : Bool := (jsTrim s).isEmpty

/-- new Blob([content]).size: the UTF-8 byte length of the string. -/
def byteSize (s : String) : Nat := s.utf8ByteSize

/-- MAX_FILE_SIZE, 5 MiB per file. -/
def MAX_FILE_SIZE : Nat := 5 * 1024 * 1024

/-- MAX_TOTAL_SIZE, 50 MiB total. -/
def MAX_TOTAL_SIZE : Nat := 50 * 1024 * 1024

/-- existingFiles.reduce((total, file) => total + file.size, 0). -/
def totalSize (files : List StoredFile) : Nat :=
  files.foldl (fun t f => t + f.size) 0

/-- Array.prototype.findIndex, with Option Nat in place of the -1 sentinel. -/
def findIndex (p : α → Bool) : List α → Option Nat
  | [] => none
  | a :: l => if p a then some 0 else (findIndex p l).map (· + 1)

/-- Collapse every run of consecutive slashes to a single slash, the effect of
replace(/\x2f{2,}/g, single slash) in buildPath. -/
def collapseSlashes (s : String) : String :=
  String.mk ((s.data.foldl
    (fun (acc : List Char) c =>
      if c = '/' ∧ acc.head? = some '/' then acc else c :: acc) []).reverse)

/-- DropboxStorageService.buildPath: basePath ++ slash ++ fileName with runs of
slashes collapsed. -/
def buildPath (basePath fileName : String) : String :=
  let raw := basePath ++ "/" ++ fileName
  if raw = "/" then "/" ++ fileName else collapseSlashes raw

/-- True when path sits at or below the base folder, the set of entries a
recursive folder delete at basePath removes. -/
def isUnder (basePath path : String) : Bool :=
  path == basePath || List.isPrefixOf (basePath ++ "/").data path.data

/-- DropboxStorageService.uploadFile: fails without a client or on a network
failure, otherwise create-or-replace at the built path.  Folder bookkeeping
(ensureFolder) is collapsed into the failure flag. -/
def dropboxUploadFile (env : DropboxEnv) (fileName content : String) :
    DropboxEnv × Except FsError Unit :=
  if env.clientAvailable = false then (env, .error .dropboxSync)
  else if env.uploadFails then (env, .error .dropboxSync)
  else
    let path := buildPath env.basePath fileName
    let updated :=
      if env.remoteFiles.any (fun pc => pc.1 == path) then
        env.remoteFiles.map (fun pc => if pc.1 == path then (path, content) else pc)
      else env.remoteFiles ++ [(path, content)]
    ({ env with remoteFiles := updated }, .ok ())

/-- DropboxStorageService.deleteFile: returns silently without a client; a
missing remote file is also silent success; the fallback resolution by listing
is collapsed into the failure flag, which models a non-not-found failure. -/
def dropboxDeleteFile (env : DropboxEnv) (fileName : String) :
    DropboxEnv × Except FsError Unit :=
  if env.clientAvailable = false then (env, .ok ())
  else if env.deleteFails then (env, .error .dropboxSync)
  else
    let path := buildPath env.basePath fileName
    ({ env with remoteFiles := env.remoteFiles.filter (fun pc => pc.1 != path) },
      .ok ())

/-- DropboxStorageService.clearAll: no client means return; an empty basePath
is skipped with a warning; otherwise filesDeleteV2 removes the base folder
recursively (not-found is swallowed, other failures propagate). -/
def dropboxClearAll (env : DropboxEnv) : DropboxEnv × Except FsError Unit :=
  if env.clientAvailable = false then (env, .ok ())
  else if env.basePath = "" then (env, .ok ())
  else if env.clearFails then (env, .error .dropboxSync)
  else
    ({ env with
        remoteFiles := env.remoteFiles.filter (fun pc => !(isUnder env.basePath pc.1)) },
      .ok ())

/-- FileStorageService.syncToDropbox: skip when not ready; an upload failure is
caught and logged, and deliberately not rethrown (source comment at the catch),
so the second component is always success. -/
def syncToDropbox (env : DropboxEnv) (fileName content : String) :
    DropboxEnv × Except FsError Unit :=
  if env.ready = false then (env, .ok ())
  else
    match dropboxUploadFile env fileName content with
    | (envAfter, .ok _) => (envAfter, .ok ())
    | (envAfter, .error _) => (envAfter, .ok ())

deriving instance DecidableEq for Except

/-- Result of one engine operation: the registry after the call, the Dropbox
state after the call, and the outcome surfaced to the caller. -/
structure EngineResult where
  registry : List StoredFile
  dropbox : DropboxEnv
  result : Except FsError Unit
deriving DecidableEq, Repr

/-- Placeholder record used with List.getD at indices findIndex produced; such
indices are always in range, so the placeholder is never read. -/
def defaultStoredFile : StoredFile := ⟨"", "", "", "", 0⟩

/-- The try block of FileStorageService.saveFile: locate an existing record by
name, run the total-size check for new names only, build the StoredFile
(preserving id and createdAt on overwrite, taking the supplied fresh id and
timestamp on creation), write the registry, then mirror to Dropbox.  freshId
and now stand for generateId() and new Date().toISOString(). -/
def saveFileBody (env : DropboxEnv) (files : List StoredFile)
    (fileName content freshId now : String) : EngineResult :=
  let contentSize := byteSize content
  match findIndex (fun f => f.name == fileName) files with
  | some i =>
    let old := files.getD i defaultStoredFile
    let fileObject : StoredFile := ⟨old.id, fileName, content, old.createdAt, contentSize⟩
    let newFiles := files.set i fileObject
    let s := syncToDropbox env fileName content
    ⟨newFiles, s.1, match s.2 with | .ok _ => .ok () | .error e => .error e⟩
  | none =>
    if totalSize files + contentSize > MAX_TOTAL_SIZE then
      ⟨files, env, .error .totalLimitExceeded⟩
    else
      let fileObject : StoredFile := ⟨freshId, fileName, content, now, contentSize⟩
      let newFiles := files ++ [fileObject]
      let s := syncToDropbox env fileName content
      ⟨newFiles, s.1, match s.2 with | .ok _ => .ok () | .error e => .error e⟩

/-- FileStorageService.saveFile: validation first (blank name, blank content,
per-file size), then the try block, then the catch: a DropboxSyncError is
rethrown unchanged, and the total-size error message contains the word storage
so the quota branch rewrites it to the storage-quota message. -/
def saveFile (env : DropboxEnv) (files : List StoredFile)
    (fileName content freshId now : String) : EngineResult :=
  if isBlank fileName then ⟨files, env, .error .nameRequired⟩
  else if isBlank content then ⟨files, env, .error .contentRequired⟩
  else if byteSize content > MAX_FILE_SIZE then ⟨files, env, .error .fileTooLarge⟩
  else
    let r := saveFileBody env files fileName content freshId now
    match r.result with
    | .error .dropboxSync => r
    | .error .totalLimitExceeded => ⟨r.registry, r.dropbox, .error .storageQuotaExceeded⟩
    | _ => r

/-- FileStorageService.loadFile: blank-name validation, then a first-match
lookup by name; missing name is a not-found error. -/
def loadFile (files : List StoredFile) (fileName : String) : Except FsError String :=
  if isBlank fileName then .error .nameRequired
  else
    match files.find? (fun f => f.name == fileName) with
    | none => .error (.notFound fileName)
    | some f => .ok f.content

/-- FileStorageService.deleteFile: blank-name validation; filter out every
record with the name; an unchanged length is a not-found error; otherwise the
filtered registry is written and the remote delete is attempted, its failure
caught and logged without restoring the record. -/
def deleteFile (env : DropboxEnv) (files : List StoredFile)
    (fileName : String) : EngineResult :=
  if isBlank fileName then ⟨files, env, .error .nameRequired⟩
  else
    let filteredFiles := files.filter (fun f => f.name != fileName)
    if filteredFiles.length = files.length then
      ⟨files, env, .error (.notFound fileName)⟩
    else
      let d := dropboxDeleteFile env fileName
      ⟨filteredFiles, d.1, .ok ()⟩

/-- FileStorageService.clearAll: remove the local blob, then call the Dropbox
clearAll; any failure there is rewritten by the catch to a generic error, with
the local registry already cleared. -/
def clearAll (env : DropboxEnv) (_files : List StoredFile) : EngineResult :=
  match dropboxClearAll env with
  | (envAfter, .ok _) => ⟨[], envAfter, .ok ()⟩
  | (envAfter, .error _) => ⟨[], envAfter, .error .clearFailed⟩

/-- FileStorageService.getFileInfo: first match by name, with null (here none)
when absent. -/
def getFileInfo (files : List StoredFile) (fileName : String) : Option StoredFile :=
  files.find? (fun f => f.name == fileName)

/-- Names of the registry are pairwise distinct. -/
def namesNodup (files : List StoredFile) : Prop :=
  (files.map (fun f => f.name)).Nodup

/-- A parsed persisted record whose fields may each be missing, mirroring the
shape JSON.parse can produce before the validity filter runs. -/
structure RawRecord where
  id : Option String
  name : Option String
  content : Option String
  createdAt : Option String
  size : Option Nat
deriving DecidableEq, Repr

/-- The persisted blob under the storage key: absent, unparsable, or a parsed
array whose entries may be null or non-objects (modelled as none). -/
inductive PersistedBlob where
  | absent
  | corrupt
  | records (entries : List (Option RawRecord))
deriving DecidableEq, Repr

/-- The validity filter of getStoredFiles, with JS truthiness spelled out:
id, name and createdAt must be present and non-empty strings, content must
merely be present (the empty string passes a strict undefined comparison), and
size must be present (zero passes). -/
def validRaw (r : RawRecord) : Bool :=
  (match r.id with | some s => !s.isEmpty | none => false) &&
  (match r.name with | some s => !s.isEmpty | none => false) &&
  r.content.isSome &&
  (match r.createdAt with | some s => !s.isEmpty | none => false) &&
  r.size.isSome

/-- Read a raw record as a StoredFile; on records the validity filter kept,
every default is dead because the field is present. -/
def rawToStored (r : RawRecord) : StoredFile :=
  ⟨r.id.getD "", r.name.getD "", r.content.getD "", r.createdAt.getD "", r.size.getD 0⟩

/-- FileStorageService.getStoredFiles over the persisted blob: an absent blob
yields the empty list; a parse failure clears the blob and yields the empty
list; a parsed array is filtered down to its well-formed entries.  The
function is total, so no failure ever reaches the caller. -/
def getStoredFiles : PersistedBlob → List StoredFile × PersistedBlob
  | .absent => ([], .absent)
  | .corrupt => ([], .absent)
  | .records entries =>
    (entries.filterMap (fun e =>
      match e with
      | none => none
      | some r => if validRaw r then some (rawToStored r) else none),
     .records entries)

/-- The closed set of cloud backends of the current engine. -/
inductive CloudProvider where
  | dropbox
  | googleDrive
deriving DecidableEq, Repr

/-- Modelled from the spec: the StoredFile shape of the current reconciliation
engine, whose FileStorageService module is not included under src/ (only its
App.tsx caller and the provider services are).  It extends the persisted
record with the nullable syncedProvider tag of spec section 3. -/
structure StoredFileV2 where
  id : String
  name : String
  content : String
  createdAt : String
  size : Nat
  syncedProvider : Option CloudProvider
deriving DecidableEq, Repr

/-- A transient remote file record produced by fetchFiles, matching the
CloudFileData fields visible at the DropboxStorageService call sites. -/
structure RemoteFileRecord where
  name : String
  path : String
  clientModified : Option String
  size : Nat
  content : String
deriving DecidableEq, Repr

/-- Modelled from the spec: the merge step of the current listFiles, which is
part of the FileStorageService module missing from src/.  Following spec
section 4.3 list(): a name in both sets keeps local id and createdAt but
adopts remote content and size and the active provider tag; a local-only name
is marked unsynced and queued as a conflict while staying in the merged set; a
remote-only name is materialised as a fresh record carrying the remote
timestamp and the provider tag.  freshIdFor stands for the id generator. -/
def reconcile (p : CloudProvider) (freshIdFor : String → String)
    (localFiles : List StoredFileV2) (remote : List RemoteFileRecord) :
    List StoredFileV2 × List StoredFileV2 :=
  let mergedLocal := localFiles.map (fun f =>
    match remote.find? (fun r => r.name == f.name) with
    | some r => { f with content := r.content, size := r.size, syncedProvider := some p }
    | none => { f with syncedProvider := none })
  let conflicts :=
    (localFiles.filter (fun f => (remote.find? (fun r => r.name == f.name)).isNone)).map
      (fun f => { f with syncedProvider := none })
  let remoteOnly :=
    (remote.filter (fun r => (localFiles.find? (fun f => f.name == r.name)).isNone)).map
      (fun r => (⟨freshIdFor r.name, r.name, r.content, r.clientModified.getD "", r.size,
        some p⟩ : StoredFileV2))
  (mergedLocal ++ remoteOnly, conflicts)

/-! ### Helper lemmas -/

/-- The Dropbox mirror step never surfaces a failure: the catch inside
syncToDropbox logs the upload error and returns normally. -/
theorem syncToDropbox_snd (env : DropboxEnv) (n c : String) :
    (syncToDropbox env n c).2 = .ok () := by
  unfold syncToDropbox
  split
  · rfl
  · split <;> rfl

theorem findIndex_eq_none_iff (p : α → Bool) (l : List α) :
    findIndex p l = none ↔ ∀ a ∈ l, p a = false := by
  induction l with
  | nil => simp [findIndex]
  | cons a l ih =>
    by_cases h : p a
    · simp [findIndex, h]
    · simp [findIndex, h, ih]

theorem findIndex_spec (p : α → Bool) (d : α) (l : List α) (i : Nat)
    (h : findIndex p l = some i) :
    l[i]? = some (l.getD i d) ∧ p (l.getD i d) = true := by
  induction l generalizing i with
  | nil => simp [findIndex] at h
  | cons a l ih =>
    by_cases hp : p a
    · simp [findIndex, hp] at h
      subst h
      simp [List.getD, hp]
    · simp [findIndex, hp] at h
      obtain ⟨j, hj, rfl⟩ := h
      simpa [List.getD] using ih j hj

theorem find?_set_of_findIndex (p : α → Bool) (l : List α) (i : Nat) (obj : α)
    (hobj : p obj = true) (h : findIndex p l = some i) :
    (l.set i obj).find? p = some obj := by
  induction l generalizing i with
  | nil => simp [findIndex] at h
  | cons a l ih =>
    by_cases hp : p a
    · simp [findIndex, hp] at h
      subst h
      simp [List.find?, hobj]
    · simp [findIndex, hp] at h
      obtain ⟨j, hj, rfl⟩ := h
      simpa [List.find?, hp] using ih j hj

theorem set_of_getElem?_eq (l : List α) (i : Nat) (a : α) (h : l[i]? = some a) :
    l.set i a = l := by
  induction l generalizing i with
  | nil => simp at h
  | cons x l ih =>
    cases i with
    | zero =>
      simp at h
      simp [h]
    | succ j =>
      simp at h ⊢
      exact ih j h

/-- Under valid inputs, saveFile reduces to the registry update it performs
plus the always-successful sync step. -/
theorem saveFile_eq_of_valid (env : DropboxEnv) (files : List StoredFile)
    (n c freshId now : String)
    (hn : isBlank n = false) (hc : isBlank c = false)
    (hsz : ¬ byteSize c > MAX_FILE_SIZE) :
    saveFile env files n c freshId now =
      match findIndex (fun f => f.name == n) files with
      | some i =>
        ⟨files.set i ⟨(files.getD i defaultStoredFile).id, n, c,
          (files.getD i defaultStoredFile).createdAt, byteSize c⟩,
         (syncToDropbox env n c).1, .ok ()⟩
      | none =>
        if totalSize files + byteSize c > MAX_TOTAL_SIZE then
          ⟨files, env, .error .storageQuotaExceeded⟩
        else
          ⟨files ++ [⟨freshId, n, c, now, byteSize c⟩], (syncToDropbox env n c).1, .ok ()⟩ := by
  unfold saveFile saveFileBody
  have hs := syncToDropbox_snd env n c
  cases hidx : findIndex (fun f => f.name == n) files with
  | some i => simp [hn, hc, hsz, hidx, hs]
  | none =>
    by_cases htot : totalSize files + byteSize c > MAX_TOTAL_SIZE
    · simp [hn, hc, hsz, hidx, htot]
    · simp [hn, hc, hsz, hidx, htot, hs]

theorem saveFile_error_cases (env : DropboxEnv) (files : List StoredFile)
    (n c freshId now : String) :
    (∃ e, (saveFile env files n c freshId now).result = .error e) ↔
      (isBlank n = true ∨ isBlank c = true ∨ byteSize c > MAX_FILE_SIZE ∨
        (findIndex (fun f => f.name == n) files = none ∧
          totalSize files + byteSize c > MAX_TOTAL_SIZE)) := by
  by_cases hn : isBlank n
  · simp [saveFile, hn]
  · by_cases hc : isBlank c
    · simp [saveFile, hn, hc]
    · by_cases hsz : byteSize c > MAX_FILE_SIZE
      · simp [saveFile, hn, hc, hsz]
      · have hn' : isBlank n = false := by simpa using hn
        have hc' : isBlank c = false := by simpa using hc
        rw [saveFile_eq_of_valid env files n c freshId now hn' hc' hsz]
        cases hidx : findIndex (fun f => f.name == n) files with
        | some i => simp [hn, hc, hsz, hidx]
        | none =>
          by_cases htot : totalSize files + byteSize c > MAX_TOTAL_SIZE
          · simp [hn, hc, hsz, hidx, htot]
          · simp [hn, hc, hsz, hidx, htot]

theorem saveFile_error_keeps_registry (env : DropboxEnv) (files : List StoredFile)
    (n c freshId now : String) (e : FsError)
    (he : (saveFile env files n c freshId now).result = .error e) :
    (saveFile env files n c freshId now).registry = files := by
  by_cases hn : isBlank n
  · simp [saveFile, hn]
  · by_cases hc : isBlank c
    · simp [saveFile, hn, hc]
    · by_cases hsz : byteSize c > MAX_FILE_SIZE
      · simp [saveFile, hn, hc, hsz]
      · have hn' : isBlank n = false := by simpa using hn
        have hc' : isBlank c = false := by simpa using hc
        rw [saveFile_eq_of_valid env files n c freshId now hn' hc' hsz] at he ⊢
        cases hidx : findIndex (fun f => f.name == n) files with
        | some i => simp [hidx] at he
        | none =>
          by_cases htot : totalSize files + byteSize c > MAX_TOTAL_SIZE
          · simp [hidx, htot]
          · simp [hidx, htot] at he

theorem saveFile_overwrite_succeeds (env : DropboxEnv) (files : List StoredFile)
    (n c freshId now : String) (i : Nat)
    (hidx : findIndex (fun f => f.name == n) files = some i)
    (hn : isBlank n = false) (hc : isBlank c = false)
    (hsz : ¬ byteSize c > MAX_FILE_SIZE) :
    (saveFile env files n c freshId now).result = .ok () := by
  rw [saveFile_eq_of_valid env files n c freshId now hn hc hsz]
  simp [hidx]

/-! ### Claims -/

/-- C1: for every non-blank name and content whose byte length is within the
per-file limit, and every registry state in which saveFile succeeds, a
subsequent loadFile of the same name returns exactly the saved content. -/
theorem save_then_load_roundtrip (env : DropboxEnv) (files : List StoredFile)
    (n c freshId now : String)
    (hn : isBlank n = false) (hc : isBlank c = false)
    (hsz : byteSize c ≤ MAX_FILE_SIZE)
    (hok : (saveFile env files n c freshId now).result = .ok ()) :
    loadFile (saveFile env files n c freshId now).registry n = .ok c := by
  have hsz' : ¬ byteSize c > MAX_FILE_SIZE := by omega
  rw [saveFile_eq_of_valid env files n c freshId now hn hc hsz'] at hok ⊢
  cases hidx : findIndex (fun f => f.name == n) files with
  | some i =>
    simp only [hidx]
    have hfind := find?_set_of_findIndex (fun f => f.name == n) files i
      ⟨(files.getD i defaultStoredFile).id, n, c,
        (files.getD i defaultStoredFile).createdAt, byteSize c⟩
      (by simp) hidx
    simp only [List.getD_eq_getElem?_getD] at hfind
    simp [loadFile, hn, hfind]
  | none =>
    simp only [hidx] at hok ⊢
    by_cases htot : totalSize files + byteSize c > MAX_TOTAL_SIZE
    · simp [htot] at hok
    · have hnone : files.find? (fun f => f.name == n) = none := by
        rw [List.find?_eq_none]
        intro f hf
        have := (findIndex_eq_none_iff (fun f => f.name == n) files).mp hidx f hf
        simp [this]
      simp [htot, loadFile, hn, List.find?_append, hnone, List.find?]

theorem save_then_load_roundtrip_witness :
    loadFile (saveFile ⟨false, false, false, false, false, "", []⟩ []
      "a.txt" "hi" "id1" "t1").registry "a.txt" = .ok "hi" :=
  save_then_load_roundtrip ⟨false, false, false, false, false, "", []⟩ []
    "a.txt" "hi" "id1" "t1" (by decide) (by decide) (by decide) (by decide)

/-- C2: evaluation at the failing input.  With the provider ready and the
remote upload failing, saveFile still resolves successfully and the local
registry retains the saved record: the sync error is logged inside
syncToDropbox and never reaches the caller, so the rethrow branch of the
saveFile catch and the sync-error handlers of both App.tsx callers are dead
code. -/
theorem saveFile_sync_failure_is_silent :
    saveFile ⟨true, true, true, false, false, "", []⟩ [] "notes.txt" "hello" "id1" "t1" =
      ⟨[⟨"id1", "notes.txt", "hello", "t1", 5⟩],
        ⟨true, true, true, false, false, "", []⟩, .ok ()⟩ := by
  decide

/-- C3 counterexample: with a Dropbox client active and a non-empty base path
configured, clearAll does delete remote storage, so the remote file set is not
left unchanged. -/
theorem clearAll_touches_remote_cex :
    (clearAll ⟨true, true, false, false, false, "/apps", [("/apps/a.txt", "A")]⟩
        [⟨"id1", "a.txt", "A", "t0", 1⟩]).dropbox.remoteFiles ≠
      [("/apps/a.txt", "A")] := by
  decide

/-- C3 amended: clearAll always empties the Local Registry; remote files are
left unchanged only when no Dropbox client is active or the configured base
path is empty, while an active client with a non-empty base path deletes the
remote base folder and everything under it. -/
theorem clearAll_amended (env : DropboxEnv) (files : List StoredFile) :
    (clearAll env files).registry = [] ∧
    ((env.clientAvailable = false ∨ env.basePath = "") →
      (clearAll env files).dropbox = env ∧ (clearAll env files).result = .ok ()) ∧
    (env.clientAvailable = true → env.basePath ≠ "" → env.clearFails = false →
      (clearAll env files).dropbox.remoteFiles =
        env.remoteFiles.filter (fun pc => !(isUnder env.basePath pc.1))) := by
  unfold clearAll dropboxClearAll
  by_cases h1 : env.clientAvailable = false
  · simp [h1]
  · by_cases h2 : env.basePath = ""
    · simp [h1, h2]
    · by_cases h3 : env.clearFails
      · simp [h1, h2, h3]
      · simp [h1, h2, h3]

theorem clearAll_amended_witness :
    (clearAll ⟨false, false, false, false, false, "", [("/x", "y")]⟩
        [⟨"i", "nm", "c", "t", 1⟩]).registry = [] ∧
    (clearAll ⟨false, false, false, false, false, "", [("/x", "y")]⟩
        [⟨"i", "nm", "c", "t", 1⟩]).dropbox.remoteFiles = [("/x", "y")] := by
  have h := clearAll_amended ⟨false, false, false, false, false, "", [("/x", "y")]⟩
    [⟨"i", "nm", "c", "t", 1⟩]
  refine ⟨h.1, ?_⟩
  rw [(h.2.1 (Or.inl rfl)).1]

/-- C4: saveFile rejects exactly when the name is blank, the content is blank,
the content exceeds the per-file limit, or the name is new and the running
total plus the new size exceeds the total limit; every rejection leaves the
registry unchanged; and an overwrite of an existing name always succeeds under
the local checks, regardless of the new size against the total limit. -/
theorem saveFile_validation_characterisation (env : DropboxEnv)
    (files : List StoredFile) (n c freshId now : String) :
    ((∃ e, (saveFile env files n c freshId now).result = .error e) ↔
      (isBlank n = true ∨ isBlank c = true ∨ byteSize c > MAX_FILE_SIZE ∨
        (findIndex (fun f => f.name == n) files = none ∧
          totalSize files + byteSize c > MAX_TOTAL_SIZE)))
    ∧ (∀ e, (saveFile env files n c freshId now).result = .error e →
        (saveFile env files n c freshId now).registry = files)
    ∧ (∀ i, findIndex (fun f => f.name == n) files = some i →
        isBlank n = false → isBlank c = false → byteSize c ≤ MAX_FILE_SIZE →
        (saveFile env files n c freshId now).result = .ok ()) :=
  ⟨saveFile_error_cases env files n c freshId now,
   fun e he => saveFile_error_keeps_registry env files n c freshId now e he,
   fun i hidx hn hc hsz =>
     saveFile_overwrite_succeeds env files n c freshId now i hidx hn hc
       (by omega)⟩

theorem saveFile_validation_characterisation_witness :
    (saveFile ⟨false, false, false, false, false, "", []⟩ [] "" "x" "i" "t").registry = []
    ∧ (saveFile ⟨false, false, false, false, false, "", []⟩
        [⟨"i0", "a.txt", "old", "t0", 52428800⟩] "a.txt" "new content!" "i" "t").result = .ok () := by
  have h1 := saveFile_validation_characterisation
    ⟨false, false, false, false, false, "", []⟩ [] "" "x" "i" "t"
  have h2 := saveFile_validation_characterisation
    ⟨false, false, false, false, false, "", []⟩
    [⟨"i0", "a.txt", "old", "t0", 52428800⟩] "a.txt" "new content!" "i" "t"
  refine ⟨?_, ?_⟩
  · exact h1.2.1 .nameRequired (by decide)
  · exact h2.2.2 0 (by decide) (by decide) (by decide) (by decide)

/-- C5: spec-modelled reconciliation.  Every record present only locally shows
up in the conflict queue, and everything in the conflict queue carries a null
syncedProvider. -/
theorem reconcile_local_only_in_conflicts (p : CloudProvider)
    (gen : String → String) (localFiles : List StoredFileV2)
    (remote : List RemoteFileRecord) :
    (∀ f ∈ localFiles, remote.find? (fun r => r.name == f.name) = none →
      { f with syncedProvider := none } ∈ (reconcile p gen localFiles remote).2)
    ∧ (∀ g ∈ (reconcile p gen localFiles remote).2, g.syncedProvider = none) := by
  constructor
  · intro f hf hnone
    unfold reconcile
    refine List.mem_map.mpr ⟨f, ?_, rfl⟩
    exact List.mem_filter.mpr ⟨hf, by simp [hnone]⟩
  · intro g hg
    unfold reconcile at hg
    obtain ⟨f, hf, rfl⟩ := List.mem_map.mp hg
    rfl

theorem reconcile_local_only_in_conflicts_witness :
    ({ id := "id1", name := "orphan.txt", content := "body", createdAt := "t0",
        size := 4, syncedProvider := none } : StoredFileV2) ∈
      (reconcile .dropbox (fun _ => "fresh")
        [⟨"id1", "orphan.txt", "body", "t0", 4, some .dropbox⟩] []).2 := by
  have h := reconcile_local_only_in_conflicts .dropbox (fun _ => "fresh")
    [⟨"id1", "orphan.txt", "body", "t0", 4, some .dropbox⟩] []
  exact h.1 ⟨"id1", "orphan.txt", "body", "t0", 4, some .dropbox⟩ (by decide) rfl

theorem filter_length_lt_of_mem {p : α → Bool} {l : List α} {a : α}
    (ha : a ∈ l) (hpa : p a = false) : (l.filter p).length < l.length := by
  induction l with
  | nil => simp at ha
  | cons x l ih =>
    rcases List.mem_cons.mp ha with h | h
    · subst h
      simp only [List.filter_cons, hpa]
      exact Nat.lt_succ_of_le (List.length_filter_le p l)
    · by_cases hx : p x
      · simpa [List.filter_cons, hx] using ih h
      · simp only [List.filter_cons, hx]
        exact Nat.lt_succ_of_lt (ih h)

/-- C6: deleteFile on a non-blank absent name raises not-found and leaves the
registry unchanged; on a present name (under name uniqueness) it removes
exactly that record, succeeds overall, and does so for every remote outcome,
including a failing remote delete. -/
theorem deleteFile_semantics (env : DropboxEnv) (files : List StoredFile)
    (n : String) (hn : isBlank n = false) :
    ((∀ f ∈ files, f.name ≠ n) →
      deleteFile env files n = ⟨files, env, .error (.notFound n)⟩)
    ∧ (∀ r ∈ files, r.name = n → namesNodup files →
        (deleteFile env files n).result = .ok () ∧
        r ∉ (deleteFile env files n).registry ∧
        (∀ g, g ∈ (deleteFile env files n).registry ↔ (g ∈ files ∧ g ≠ r))) := by
  constructor
  · intro habs
    have hfilter : files.filter (fun f => f.name != n) = files := by
      rw [List.filter_eq_self]
      intro f hf
      simpa using habs f hf
    simp [deleteFile, hn, hfilter]
  · intro r hr hrn hnodup
    have hpr : (r.name != n) = false := by simp [hrn]
    have hlt := filter_length_lt_of_mem (p := fun f => f.name != n) hr hpr
    have hne : ¬ (files.filter (fun f => f.name != n)).length = files.length :=
      Nat.ne_of_lt hlt
    have hreg : (deleteFile env files n).registry =
        files.filter (fun f => f.name != n) := by
      simp [deleteFile, hn, hne]
    have hres : (deleteFile env files n).result = .ok () := by
      simp [deleteFile, hn, hne]
    refine ⟨hres, ?_, ?_⟩
    · rw [hreg]
      intro hmem
      have := (List.mem_filter.mp hmem).2
      rw [hpr] at this
      exact Bool.false_ne_true this
    · intro g
      rw [hreg, List.mem_filter]
      constructor
      · rintro ⟨hg, hgp⟩
        refine ⟨hg, ?_⟩
        rintro rfl
        rw [hpr] at hgp
        exact Bool.false_ne_true hgp
      · rintro ⟨hg, hgr⟩
        refine ⟨hg, ?_⟩
        simp only [bne_iff_ne, ne_eq]
        intro hgn
        exact hgr (List.inj_on_of_nodup_map hnodup hg hr (hgn.trans hrn.symm))

theorem deleteFile_semantics_witness :
    (deleteFile ⟨true, true, false, true, false, "", [("/a.txt", "A")]⟩
        [⟨"i1", "a.txt", "A", "t0", 1⟩] "a.txt").result = .ok () ∧
    (⟨"i1", "a.txt", "A", "t0", 1⟩ : StoredFile) ∉
      (deleteFile ⟨true, true, false, true, false, "", [("/a.txt", "A")]⟩
        [⟨"i1", "a.txt", "A", "t0", 1⟩] "a.txt").registry := by
  have h := deleteFile_semantics ⟨true, true, false, true, false, "", [("/a.txt", "A")]⟩
    [⟨"i1", "a.txt", "A", "t0", 1⟩] "a.txt" (by decide)
  have h2 := h.2 ⟨"i1", "a.txt", "A", "t0", 1⟩ (by decide) rfl
    (by simp [namesNodup])
  exact ⟨h2.1, h2.2.1⟩

/-- C7: the registry read is total, so no failure reaches the caller; a
corrupted blob resets the persisted state and yields the empty collection; a
parsed blob keeps exactly its well-formed entries: everything returned comes
from a valid entry, and every valid entry is returned. -/
theorem getStoredFiles_robust :
    (getStoredFiles .corrupt = ([], .absent))
    ∧ (getStoredFiles .absent = ([], .absent))
    ∧ (∀ entries f, f ∈ (getStoredFiles (.records entries)).1 →
        ∃ r, some r ∈ entries ∧ validRaw r = true ∧ f = rawToStored r)
    ∧ (∀ entries r, some r ∈ entries → validRaw r = true →
        rawToStored r ∈ (getStoredFiles (.records entries)).1) := by
  refine ⟨rfl, rfl, ?_, ?_⟩
  · intro entries f hf
    simp only [getStoredFiles] at hf
    obtain ⟨e, he, hge⟩ := List.mem_filterMap.mp hf
    cases e with
    | none => simp at hge
    | some r =>
      by_cases hv : validRaw r
      · refine ⟨r, he, hv, ?_⟩
        simp [hv] at hge
        exact hge.symm
      · simp [hv] at hge
  · intro entries r hr hv
    simp only [getStoredFiles]
    exact List.mem_filterMap.mpr ⟨some r, hr, by simp [hv]⟩

theorem getStoredFiles_robust_witness :
    (⟨"i", "nm", "", "t", 0⟩ : StoredFile) ∈
      (getStoredFiles (.records
        [none, some ⟨some "i", some "nm", some "", some "t", some 0⟩,
          some ⟨none, some "n2", some "c", some "t", some 3⟩])).1 :=
  getStoredFiles_robust.2.2.2
    [none, some ⟨some "i", some "nm", some "", some "t", some 0⟩,
      some ⟨none, some "n2", some "c", some "t", some 3⟩]
    ⟨some "i", some "nm", some "", some "t", some 0⟩ (by decide) (by decide)

/-- C8: name uniqueness is preserved: from any registry whose stored names are
pairwise distinct, saveFile (replacing in place on overwrite, appending a new
name otherwise), deleteFile, and clearAll each yield a registry whose names
are still pairwise distinct. -/
theorem registry_names_unique_invariant (env : DropboxEnv)
    (files : List StoredFile) (n c freshId now m : String)
    (h : namesNodup files) :
    namesNodup (saveFile env files n c freshId now).registry ∧
    namesNodup (deleteFile env files m).registry ∧
    namesNodup (clearAll env files).registry := by
  refine ⟨?_, ?_, ?_⟩
  · by_cases hn : isBlank n
    · simpa [saveFile, hn] using h
    · by_cases hc : isBlank c
      · simpa [saveFile, hn, hc] using h
      · by_cases hsz : byteSize c > MAX_FILE_SIZE
        · simpa [saveFile, hn, hc, hsz] using h
        · have hn' : isBlank n = false := by simpa using hn
          have hc' : isBlank c = false := by simpa using hc
          rw [saveFile_eq_of_valid env files n c freshId now hn' hc' hsz]
          cases hidx : findIndex (fun f => f.name == n) files with
          | some i =>
            obtain ⟨hget, hp⟩ :=
              findIndex_spec (fun f => f.name == n) defaultStoredFile files i hidx
            have hname : (files.getD i defaultStoredFile).name = n := by
              simpa using hp
            simp only [namesNodup] at h ⊢
            rw [List.map_set]
            have hmap : (List.map (fun f => f.name) files)[i]? = some n := by
              rw [List.getElem?_map, hget, Option.map_some', hname]
            rw [set_of_getElem?_eq _ _ _ hmap]
            exact h
          | none =>
            by_cases htot : totalSize files + byteSize c > MAX_TOTAL_SIZE
            · simpa [htot] using h
            · simp only [htot, if_neg, ite_false]
              simp only [namesNodup] at h ⊢
              rw [List.map_append, List.nodup_append]
              refine ⟨h, by simp, ?_⟩
              intro x hx hx2
              obtain ⟨f, hf, hfn⟩ := List.mem_map.mp hx
              have hfalse := (findIndex_eq_none_iff (fun g => g.name == n) files).mp
                hidx f hf
              have hxn : x = n := by simpa using hx2
              rw [hfn, hxn] at hfalse
              simp at hfalse
  · by_cases hm : isBlank m
    · simpa [deleteFile, hm] using h
    · by_cases hlen : (files.filter (fun f => f.name != m)).length = files.length
      · simpa [deleteFile, hm, hlen] using h
      · have hsub : namesNodup (files.filter (fun f => f.name != m)) := by
          simp only [namesNodup] at h ⊢
          exact h.sublist ((files.filter_sublist).map _)
        simpa [deleteFile, hm, hlen] using hsub
  · unfold clearAll
    rcases hd : dropboxClearAll env with ⟨envAfter, r⟩
    cases r <;> simp [namesNodup]

theorem registry_names_unique_invariant_witness :
    namesNodup (saveFile ⟨false, false, false, false, false, "", []⟩
      [⟨"i1", "a.txt", "A", "t0", 1⟩] "a.txt" "BB" "i2" "t1").registry := by
  have h := registry_names_unique_invariant ⟨false, false, false, false, false, "", []⟩
    [⟨"i1", "a.txt", "A", "t0", 1⟩] "a.txt" "BB" "i2" "t1" "other"
    (by simp [namesNodup])
  exact h.1

/-- C9: a successful overwrite keeps the stored id and createdAt while
replacing content and size with the new content and its byte length; a
successful save of a new name appends a record carrying the freshly generated
id and the fresh timestamp. -/
theorem saveFile_metadata_rules (env : DropboxEnv) (files : List StoredFile)
    (n c freshId now : String)
    (hn : isBlank n = false) (hc : isBlank c = false)
    (hsz : byteSize c ≤ MAX_FILE_SIZE) :
    (∀ i, findIndex (fun f => f.name == n) files = some i →
      (saveFile env files n c freshId now).registry =
        files.set i ⟨(files.getD i defaultStoredFile).id, n, c,
          (files.getD i defaultStoredFile).createdAt, byteSize c⟩)
    ∧ (findIndex (fun f => f.name == n) files = none →
        totalSize files + byteSize c ≤ MAX_TOTAL_SIZE →
        (saveFile env files n c freshId now).registry =
          files ++ [⟨freshId, n, c, now, byteSize c⟩]) := by
  have hsz' : ¬ byteSize c > MAX_FILE_SIZE := by omega
  rw [saveFile_eq_of_valid env files n c freshId now hn hc hsz']
  constructor
  · intro i hidx
    simp [hidx]
  · intro hidx htot
    have htot' : ¬ totalSize files + byteSize c > MAX_TOTAL_SIZE := by omega
    simp [hidx, htot']

theorem saveFile_metadata_rules_witness :
    (saveFile ⟨false, false, false, false, false, "", []⟩
      [⟨"orig", "a.txt", "old", "created0", 3⟩] "a.txt" "newbody" "fresh" "t9").registry =
      [⟨"orig", "a.txt", "newbody", "created0", 7⟩] := by
  have h := saveFile_metadata_rules ⟨false, false, false, false, false, "", []⟩
    [⟨"orig", "a.txt", "old", "created0", 3⟩] "a.txt" "newbody" "fresh" "t9"
    (by decide) (by decide) (by decide)
  have h0 := h.1 0 (by decide)
  simpa using h0

/-- C10: for a non-blank name with no matching record, getFileInfo answers
with null while loadFile raises a not-found error: the two lookup accessors
signal absence differently. -/
theorem getFileInfo_null_loadFile_raises (files : List StoredFile) (n : String)
    (hn : isBlank n = false) (habs : ∀ f ∈ files, f.name ≠ n) :
    getFileInfo files n = none ∧ loadFile files n = .error (.notFound n) := by
  have hfind : files.find? (fun f => f.name == n) = none := by
    rw [List.find?_eq_none]
    intro f hf
    simpa using habs f hf
  constructor
  · simp [getFileInfo, hfind]
  · simp [loadFile, hn, hfind]

theorem getFileInfo_null_loadFile_raises_witness :
    getFileInfo [⟨"i1", "other.txt", "A", "t0", 1⟩] "missing.txt" = none ∧
    loadFile [⟨"i1", "other.txt", "A", "t0", 1⟩] "missing.txt" =
      .error (.notFound "missing.txt") :=
  getFileInfo_null_loadFile_raises [⟨"i1", "other.txt", "A", "t0", 1⟩]
    "missing.txt" (by decide) (by decide)
